import Mathlib

/-!
Verification development for the animated background renderer
(`src/components/ParticleBackground.tsx`).

The component's per-frame simulation code is embedded shallowly:
numbers are rationals (the source's floating-point literals `0.1`, `2.5`,
`0.2`, `0.4` become `1/10`, `5/2`, `1/5`, `2/5`), and the square root
produced by `Math.sqrt` is threaded through as an explicit parameter
`dist` constrained by `IsSqrtOf dist s` (`0 ≤ dist ∧ dist * dist = s`),
which characterises the real square root exactly when its value is
rational.  Randomness (`Math.random()`) is modelled as an indexed stream
`rand : ℕ → ℚ` of draws.  Drawing calls are side effects on the canvas
and are represented by the data they would paint (line segments with
opacity and stroke color).
-/

/-- The `AnimationType` union of the component (`'network' | 'waves' | 'dots'`). -/
inductive AnimationType where
  | network
  | waves
  | dots
deriving DecidableEq

/-- The drawable surface: `canvas.width`/`canvas.height` in pixels. -/
structure Canvas where
  width : ℚ
  height : ℚ
deriving DecidableEq

/-- The pointer-tracking record of lines 24–28: `x` and `y` start out
`undefined` (here `none`) and `radius` is the fixed influence radius `150`. -/
structure Mouse where
  x : Option ℚ
  y : Option ℚ
  radius : ℚ
deriving DecidableEq

/-- The mouse state as created on mount (lines 24–28): both coordinates
`undefined`, influence radius 150. -/
def initMouse : Mouse := { x := none, y := none, radius := 150 }

/-- `handleMouseMove` (lines 30–33): stores the event's client coordinates
verbatim. -/
def handleMouseMove (m : Mouse) (clientX clientY : ℚ) : Mouse :=
  { m with x := some clientX, y := some clientY }

/-- A particle (class `Particle`, lines 50–75).  The legacy fields
`baseX`, `baseY`, `density` set in the constructor are never read by any
method and are omitted. -/
structure Particle where
  x : ℚ
  y : ℚ
  baseRadius : ℚ
  radius : ℚ
  dx : ℚ
  dy : ℚ
  color : String
deriving DecidableEq

/-- One axis of the boundary check of lines 86–87: the velocity component
is negated when the particle's disc currently sticks out past either
bound of `[0, limit]` on that axis. -/
def bounceV (pos r v limit : ℚ) : ℚ :=
  if pos + r > limit ∨ pos - r < 0 then -v else v

/-- Lines 86–90 of `Particle.update`: flip `dx`/`dy` according to the
boundary checks, then advance the position by the (possibly flipped)
velocity. -/
def Particle.move (c : Canvas) (p : Particle) : Particle :=
  let dx := bounceV p.x p.radius p.dx c.width
  let dy := bounceV p.y p.radius p.dy c.height
  { p with dx := dx, dy := dy, x := p.x + dx, y := p.y + dy }

/-- The squared distance `dxMouse*dxMouse + dyMouse*dyMouse` of lines
94–96, with `dxMouse = mouse.x - this.x`, `dyMouse = mouse.y - this.y`. -/
def mouseSqDist (mx my : ℚ) (p : Particle) : ℚ :=
  (mx - p.x) * (mx - p.x) + (my - p.y) * (my - p.y)

/-- `IsSqrtOf dist s` says `dist` is the value `Math.sqrt(s)` would
return: nonnegative with square `s`.  For rational inputs whose square
root is rational this characterises it uniquely. -/
def IsSqrtOf (dist s : ℚ) : Prop := 0 ≤ dist ∧ dist * dist = s

/-- Lines 92–110 of `Particle.update` (the mouse-interaction block),
parameterised by `dist`, the value `Math.sqrt` returned for the squared
particle–pointer distance.  The whole block is guarded by
`mouse.x !== undefined && mouse.y !== undefined`. -/
def Particle.interact (ty : AnimationType) (m : Mouse) (dist : ℚ) (p : Particle) : Particle :=
  match m.x, m.y with
  | some mx, some my =>
    match ty with
    | AnimationType.network =>
        if dist < m.radius then
          { p with x := p.x - (mx - p.x) / 20, y := p.y - (my - p.y) / 20 }
        else p
    | AnimationType.dots =>
        if dist < m.radius then
          { p with radius := min (p.baseRadius * 3) (p.baseRadius + (m.radius - dist) / 10) }
        else if p.baseRadius < p.radius then
          { p with radius := p.radius - 1/10 }
        else p
    | AnimationType.waves => p
  | _, _ => p

/-- `Particle.update` (lines 85–113): boundary reflection and position
advance first, then the mouse interaction computed from the advanced
position.  (`draw()` at line 112 only paints and mutates no state.) -/
def Particle.update (ty : AnimationType) (c : Canvas) (m : Mouse) (dist : ℚ) (p : Particle) :
    Particle :=
  Particle.interact ty m dist (Particle.move c p)

/-- The particle-count rule of lines 118–119:
`type === 'network' ? (isMobile ? 40 : 80) : (isMobile ? 60 : 180)` with
`isMobile = window.innerWidth < 768`. -/
def particleCount (ty : AnimationType) (innerWidth : ℚ) : ℕ :=
  if ty = AnimationType.network then
    (if innerWidth < 768 then 40 else 80)
  else
    (if innerWidth < 768 then 60 else 180)

/-- `initParticles` (lines 116–130).  The prior array is discarded
(`particles = []`, line 117) and a fresh set is built; the `i`-th particle
consumes five draws from the random stream (radius, x, y, dx, dy). -/
def initParticles (ty : AnimationType) (innerWidth : ℚ) (c : Canvas) (rand : ℕ → ℚ) :
    List Particle :=
  (List.range (particleCount ty innerWidth)).map fun i =>
    let radius := if ty = AnimationType.network then rand (5*i) * 2 + 1 else rand (5*i) * (5/2) + 1
    let speed : ℚ := if ty = AnimationType.dots then 1/5 else 2/5
    { x := rand (5*i+1) * (c.width - radius * 2) + radius
      y := rand (5*i+2) * (c.height - radius * 2) + radius
      baseRadius := radius
      radius := radius
      dx := (rand (5*i+3) - 1/2) * speed
      dy := (rand (5*i+4) - 1/2) * speed
      color := if i % 3 = 0 then "rgba(123, 62, 240, 0.85)" else "rgba(106, 236, 255, 0.85)" }

/-- JavaScript truthiness of a possibly-undefined number: `undefined` and
`0` are falsy, any other number is truthy (`NaN` does not arise over ℚ). -/
def truthy : Option ℚ → Bool
  | none => false
  | some v => decide (v ≠ 0)

/-- The highlighted stroke prefix of line 144. -/
def highlightStroke : String := "rgba(123, 62, 240, "

/-- The default stroke prefix of line 144. -/
def defaultStroke : String := "rgba(106, 236, 255, "

/-- The stroke-color choice of line 144:
`mouse.x && mouse.y && dist(mouse, particles[a]) < mouse.radius ? highlight : default`,
with `dA` the square root of the squared mouse distance to `particles[a]`
(short-circuited away when a coordinate is falsy). -/
def lineColor (m : Mouse) (dA : ℚ) : String :=
  if truthy m.x && truthy m.y && decide (dA < m.radius) then highlightStroke else defaultStroke

/-- `connectDistance` of line 135: `canvas.width / 8`. -/
def connectDistance (c : Canvas) : ℚ := c.width / 8

/-- The body of the inner loop of `connect` (lines 142–151): when the
pair's distance `dist` is below the threshold, a stroke is issued with
opacity `1 - distance/connectDistance` and the color of line 144. -/
def connectLine (c : Canvas) (m : Mouse) (dist dA : ℚ) : Option (ℚ × String) :=
  if dist < connectDistance c then
    some (1 - dist / connectDistance c, lineColor m dA)
  else
    none

/-- A stroke issued by `connect`: the indices of the two endpoint
particles, the opacity baked into the stroke style, and the color prefix. -/
structure LineSeg where
  a : ℕ
  b : ℕ
  opacity : ℚ
  color : String
deriving DecidableEq

/-- `connect` (lines 132–154): the double loop `a ∈ [0, n)`,
`b ∈ [a, n)` over particle indices, with `d a b` the square root of the
squared distance between `particles[a]` and `particles[b]` and `dA a` the
square root of the squared mouse distance to `particles[a]`. -/
def connect (c : Canvas) (m : Mouse) (n : ℕ) (d : ℕ → ℕ → ℚ) (dA : ℕ → ℚ) : List LineSeg :=
  (List.range n).flatMap fun a =>
    ((List.range n).filter fun b => a ≤ b).filterMap fun b =>
      (connectLine c m (d a b) (dA a)).map fun oc => { a := a, b := b, opacity := oc.1, color := oc.2 }

/-- A wave record as built by `initWaves` (lines 166–173). -/
structure Wave where
  timeModifier : ℚ
  baseAmplitude : ℚ
  amplitude : ℚ
  wavelength : ℚ
  yOffset : ℚ
  color : String
deriving DecidableEq

/-- The per-frame amplitude recomputation of `drawWaves` (lines 181–186):
when `mouse.y` is defined, `amplitude = baseAmplitude + influence * 20 * (index + 1)`
with `influence = (mouse.y / canvas.height) * 2 - 1`; otherwise the
stored amplitude is untouched. -/
def waveAmplitude (c : Canvas) (m : Mouse) (w : Wave) (index : ℕ) : ℚ :=
  match m.y with
  | some my => w.baseAmplitude + ((my / c.height) * 2 - 1) * 20 * ((index : ℚ) + 1)
  | none => w.amplitude

/-! ## Bounce dynamics: reachable-state invariant for one axis -/

/-- Reachable-state invariant for one axis of the bounce-and-move step of
lines 86–90: either the disc lies inside the band `[r, limit - r]`, or it
overshoots past the side it just moved toward by at most one velocity
step `|v|`. -/
def AxisOK (limit r x v : ℚ) : Prop :=
  (r ≤ x ∧ x ≤ limit - r) ∨
  (limit - r < x ∧ x ≤ limit - r + |v| ∧ 0 < v) ∨
  (x < r ∧ r - |v| ≤ x ∧ v < 0)

/-- The reflection negates but never rescales: the speed on the axis is
preserved. -/
theorem abs_bounceV (pos r v limit : ℚ) : |bounceV pos r v limit| = |v| := by
  unfold bounceV
  split
  · exact abs_neg v
  · rfl

/-- One bounce-and-move step preserves `AxisOK` (when the disc fits in
the axis extent at all). -/
theorem axisOK_step (limit r x v : ℚ) (hlim : 2 * r ≤ limit) (h : AxisOK limit r x v) :
    AxisOK limit r (x + bounceV x r v limit) (bounceV x r v limit) := by
  unfold AxisOK at h ⊢
  unfold bounceV
  rcases h with ⟨h1, h2⟩ | ⟨h1, h2, h3⟩ | ⟨h1, h2, h3⟩
  · rw [if_neg (by push_neg; constructor <;> linarith)]
    rcases le_or_lt (x + v) (limit - r) with h4 | h4
    · rcases le_or_lt r (x + v) with h5 | h5
      · exact Or.inl ⟨h5, h4⟩
      · refine Or.inr (Or.inr ⟨h5, ?_, by linarith⟩)
        have := neg_abs_le v
        linarith
    · refine Or.inr (Or.inl ⟨h4, ?_, by linarith⟩)
      have := le_abs_self v
      linarith
  · rw [if_pos (Or.inl (by linarith))]
    have hv : |v| = v := abs_of_pos h3
    rcases le_or_lt r (x + -v) with h4 | h4
    · refine Or.inl ⟨h4, ?_⟩
      rw [hv] at h2
      linarith
    · refine Or.inr (Or.inr ⟨h4, ?_, by linarith⟩)
      rw [abs_neg, hv]
      linarith
  · rw [if_pos (Or.inr (by linarith))]
    have hv : |v| = -v := abs_of_neg h3
    rcases le_or_lt (x + -v) (limit - r) with h4 | h4
    · refine Or.inl ⟨?_, h4⟩
      rw [hv] at h2
      linarith
    · refine Or.inr (Or.inl ⟨h4, ?_, by linarith⟩)
      rw [abs_neg, hv]
      linarith

/-- `AxisOK` pins the coordinate inside the band widened by one velocity
step on each side. -/
theorem axisOK_band (limit r x v : ℚ) (hlim : 2 * r ≤ limit) (h : AxisOK limit r x v) :
    r - |v| ≤ x ∧ x ≤ limit - r + |v| := by
  have h0 := abs_nonneg v
  have h1 := le_abs_self v
  have h2 := neg_abs_le v
  rcases h with ⟨ha, hb⟩ | ⟨ha, hb, hc⟩ | ⟨ha, hb, hc⟩ <;> constructor <;> linarith

/-! ## C1: the strict in-band invariant fails; a one-step-widened band holds -/

/-- A particle one velocity step short of the right edge: in band before
the update, strictly past `width - radius` after it. -/
def particleEdge : Particle :=
  { x := 989/10, y := 50, baseRadius := 1, radius := 1, dx := 1/5, dy := 0, color := "e" }

/-- **C1 (counterexample)**: on a 100×100 surface with the pointer absent,
`particleEdge` satisfies `radius ≤ x ≤ width − radius` and
`radius ≤ y ≤ height − radius` before its per-frame update, yet after the
update its `x` exceeds `width − radius`: the claimed invariant does not
hold at every frame. -/
theorem bounds_invariant_counterexample :
    particleEdge.radius ≤ particleEdge.x ∧ particleEdge.x ≤ (100:ℚ) - particleEdge.radius ∧
    particleEdge.radius ≤ particleEdge.y ∧ particleEdge.y ≤ (100:ℚ) - particleEdge.radius ∧
    ¬((Particle.update AnimationType.network { width := 100, height := 100 } initMouse 0
          particleEdge).x ≤
        100 - (Particle.update AnimationType.network { width := 100, height := 100 } initMouse 0
          particleEdge).radius) := by
  refine ⟨by norm_num [particleEdge], by norm_num [particleEdge], by norm_num [particleEdge],
    by norm_num [particleEdge], ?_⟩
  have h : Particle.update AnimationType.network { width := 100, height := 100 } initMouse 0
      particleEdge = Particle.move { width := 100, height := 100 } particleEdge := rfl
  rw [h]
  norm_num [Particle.move, bounceV, particleEdge]

/-- **C1 (amended)**: in network and dots modes with the pointer absent,
the per-frame update keeps each coordinate within the bounce band widened
by one velocity step on each side: `radius − |dx| ≤ x ≤ width − radius + |dx|`
and `radius − |dy| ≤ y ≤ height − radius + |dy|` (so the disc can
overshoot the surface by at most one per-frame step).  The reachability
invariant `AxisOK` is re-established on both axes, the position advances
exactly by the (possibly reflected) velocity — it is never clamped — and
the radius and per-axis speeds are unchanged. -/
theorem bounds_band_invariant (ty : AnimationType) (c : Canvas) (R dist : ℚ) (p : Particle)
    (hty : ty = AnimationType.network ∨ ty = AnimationType.dots)
    (hw : 2 * p.radius ≤ c.width) (hh : 2 * p.radius ≤ c.height)
    (hx : AxisOK c.width p.radius p.x p.dx) (hy : AxisOK c.height p.radius p.y p.dy) :
    AxisOK c.width (Particle.update ty c { x := none, y := none, radius := R } dist p).radius
        (Particle.update ty c { x := none, y := none, radius := R } dist p).x
        (Particle.update ty c { x := none, y := none, radius := R } dist p).dx ∧
    AxisOK c.height (Particle.update ty c { x := none, y := none, radius := R } dist p).radius
        (Particle.update ty c { x := none, y := none, radius := R } dist p).y
        (Particle.update ty c { x := none, y := none, radius := R } dist p).dy ∧
    (Particle.update ty c { x := none, y := none, radius := R } dist p).radius -
        |(Particle.update ty c { x := none, y := none, radius := R } dist p).dx| ≤
      (Particle.update ty c { x := none, y := none, radius := R } dist p).x ∧
    (Particle.update ty c { x := none, y := none, radius := R } dist p).x ≤
      c.width - (Particle.update ty c { x := none, y := none, radius := R } dist p).radius +
        |(Particle.update ty c { x := none, y := none, radius := R } dist p).dx| ∧
    (Particle.update ty c { x := none, y := none, radius := R } dist p).radius -
        |(Particle.update ty c { x := none, y := none, radius := R } dist p).dy| ≤
      (Particle.update ty c { x := none, y := none, radius := R } dist p).y ∧
    (Particle.update ty c { x := none, y := none, radius := R } dist p).y ≤
      c.height - (Particle.update ty c { x := none, y := none, radius := R } dist p).radius +
        |(Particle.update ty c { x := none, y := none, radius := R } dist p).dy| ∧
    (Particle.update ty c { x := none, y := none, radius := R } dist p).x =
      p.x + (Particle.update ty c { x := none, y := none, radius := R } dist p).dx ∧
    (Particle.update ty c { x := none, y := none, radius := R } dist p).y =
      p.y + (Particle.update ty c { x := none, y := none, radius := R } dist p).dy ∧
    (Particle.update ty c { x := none, y := none, radius := R } dist p).radius = p.radius ∧
    |(Particle.update ty c { x := none, y := none, radius := R } dist p).dx| = |p.dx| ∧
    |(Particle.update ty c { x := none, y := none, radius := R } dist p).dy| = |p.dy| := by
  have hu : Particle.update ty c { x := none, y := none, radius := R } dist p =
      Particle.move c p := rfl
  rw [hu]
  have hux : (Particle.move c p).x = p.x + bounceV p.x p.radius p.dx c.width := rfl
  have huy : (Particle.move c p).y = p.y + bounceV p.y p.radius p.dy c.height := rfl
  have hudx : (Particle.move c p).dx = bounceV p.x p.radius p.dx c.width := rfl
  have hudy : (Particle.move c p).dy = bounceV p.y p.radius p.dy c.height := rfl
  have hur : (Particle.move c p).radius = p.radius := rfl
  rw [hux, huy, hudx, hudy, hur]
  have hxs := axisOK_step c.width p.radius p.x p.dx hw hx
  have hys := axisOK_step c.height p.radius p.y p.dy hh hy
  have hxb := axisOK_band c.width p.radius (p.x + bounceV p.x p.radius p.dx c.width)
    (bounceV p.x p.radius p.dx c.width) hw hxs
  have hyb := axisOK_band c.height p.radius (p.y + bounceV p.y p.radius p.dy c.height)
    (bounceV p.y p.radius p.dy c.height) hh hys
  exact ⟨hxs, hys, hxb.1, hxb.2, hyb.1, hyb.2, rfl, rfl, rfl,
    abs_bounceV p.x p.radius p.dx c.width, abs_bounceV p.y p.radius p.dy c.height⟩

/-- A mid-surface particle used to instantiate the band invariant. -/
def particleMid : Particle :=
  { x := 50, y := 50, baseRadius := 1, radius := 1, dx := 1/5, dy := 0, color := "w" }

/-- Witness for `bounds_band_invariant` at a concrete in-band particle on
a 100×100 surface. -/
theorem bounds_band_invariant_witness :
    (Particle.update AnimationType.network { width := 100, height := 100 }
        { x := none, y := none, radius := 150 } 0 particleMid).x ≤
      100 - (Particle.update AnimationType.network { width := 100, height := 100 }
        { x := none, y := none, radius := 150 } 0 particleMid).radius +
        |(Particle.update AnimationType.network { width := 100, height := 100 }
        { x := none, y := none, radius := 150 } 0 particleMid).dx| ∧
    (Particle.update AnimationType.network { width := 100, height := 100 }
        { x := none, y := none, radius := 150 } 0 particleMid).x =
      particleMid.x + (Particle.update AnimationType.network { width := 100, height := 100 }
        { x := none, y := none, radius := 150 } 0 particleMid).dx :=
  have h := bounds_band_invariant AnimationType.network { width := 100, height := 100 } 150 0
    particleMid (Or.inl rfl) (by norm_num [particleMid]) (by norm_num [particleMid])
    (Or.inl (by norm_num [particleMid])) (Or.inl (by norm_num [particleMid]))
  ⟨h.2.2.2.1, h.2.2.2.2.2.2.1⟩

/-! ## C4: the reflection test reads the current position, not the next one -/

/-- A particle whose next advance carries its leading edge past the right
bound, but whose current position is still inside it. -/
def particleSkim : Particle :=
  { x := 1979/10, y := 50, baseRadius := 2, radius := 2, dx := 3/10, dy := 0, color := "s" }

/-- **C4 (counterexample)**: for `particleSkim` on a 200×150 surface the
advance would carry the leading edge past the right bound
(`x + dx + radius > width`), yet the update does not negate `dx` — the
code tests the current position, not the would-be next one. -/
theorem bounce_predictive_counterexample :
    particleSkim.x + particleSkim.dx + particleSkim.radius > (200:ℚ) ∧
    (Particle.move { width := 200, height := 150 } particleSkim).dx = particleSkim.dx := by
  constructor
  · norm_num [particleSkim]
  · norm_num [Particle.move, bounceV, particleSkim]

/-- **C4 (amended)**: on each axis the per-frame update negates the
velocity component exactly when the particle's disc currently sticks out
past a bound of the surface on that axis — i.e. when `x + radius > width`
or `x − radius < 0` at the pre-advance position (not when the advance
*would* cross a bound) — and the reflection preserves the velocity's
magnitude on each axis (pure reflection, no damping). -/
theorem bounce_condition_reflection (c : Canvas) (p : Particle)
    (hdx : p.dx ≠ 0) (hdy : p.dy ≠ 0) :
    ((Particle.move c p).dx = -p.dx ↔ (p.x + p.radius > c.width ∨ p.x - p.radius < 0)) ∧
    ((Particle.move c p).dy = -p.dy ↔ (p.y + p.radius > c.height ∨ p.y - p.radius < 0)) ∧
    |(Particle.move c p).dx| = |p.dx| ∧ |(Particle.move c p).dy| = |p.dy| := by
  have hx : (Particle.move c p).dx = bounceV p.x p.radius p.dx c.width := rfl
  have hy : (Particle.move c p).dy = bounceV p.y p.radius p.dy c.height := rfl
  refine ⟨?_, ?_, ?_, ?_⟩
  · rw [hx]; unfold bounceV
    split
    · simp_all
    · rename_i hcond
      constructor
      · intro he
        exact absurd (by linarith [he] : p.dx = 0) hdx
      · intro hc
        exact absurd hc hcond
  · rw [hy]; unfold bounceV
    split
    · simp_all
    · rename_i hcond
      constructor
      · intro he
        exact absurd (by linarith [he] : p.dy = 0) hdy
      · intro hc
        exact absurd hc hcond
  · rw [hx]; exact abs_bounceV p.x p.radius p.dx c.width
  · rw [hy]; exact abs_bounceV p.y p.radius p.dy c.height

/-- Witness for `bounce_condition_reflection`: a particle currently
sticking out past the right bound has `dx` negated with unchanged
magnitude. -/
theorem bounce_condition_reflection_witness :
    ((Particle.move { width := 100, height := 100 }
        { x := 991/10, y := 50, baseRadius := 1, radius := 1, dx := 1/5, dy := 1/10,
          color := "v" }).dx = -(1/5) ↔
      ((991:ℚ)/10 + 1 > 100 ∨ (991:ℚ)/10 - 1 < 0)) ∧
    |(Particle.move { width := 100, height := 100 }
        { x := 991/10, y := 50, baseRadius := 1, radius := 1, dx := 1/5, dy := 1/10,
          color := "v" }).dx| = |(1:ℚ)/5| := by
  have h := bounce_condition_reflection { width := 100, height := 100 }
    { x := 991/10, y := 50, baseRadius := 1, radius := 1, dx := 1/5, dy := 1/10, color := "v" }
    (by norm_num) (by norm_num)
  exact ⟨h.1, h.2.2.1⟩

/-! ## C2: with the pointer absent the magnified radius never decays -/

/-- A magnified, motionless dots particle: `radius` 5 above `baseRadius` 2. -/
def particleMagnified : Particle :=
  { x := 400, y := 100, baseRadius := 2, radius := 5, dx := 0, dy := 0, color := "m" }

/-- **C2 (counterexample)**: the dots-mode update with the pointer absent
is the identity on `particleMagnified`, whose `currentRadius` 5 exceeds
its `baseRadius` 2 — so with the pointer absent for every subsequent
frame the radius stays at 5 forever and never decreases back to the
base: the whole mouse-interaction block, decay branch included, is
guarded by the pointer-presence test of line 93. -/
theorem dots_decay_counterexample :
    Particle.update AnimationType.dots { width := 800, height := 600 } initMouse 0
        particleMagnified = particleMagnified ∧
    particleMagnified.baseRadius < particleMagnified.radius := by
  constructor
  · have h : Particle.update AnimationType.dots { width := 800, height := 600 } initMouse 0
        particleMagnified = Particle.move { width := 800, height := 600 } particleMagnified := rfl
    rw [h]
    show Particle.mk _ _ _ _ _ _ _ = _
    norm_num [Particle.move, bounceV, particleMagnified]
  · norm_num [particleMagnified]

/-- **C2 (amended)**: in dots mode, with the pointer absent the update
leaves `currentRadius` unchanged; with the pointer present but at
Euclidean distance ≥ `influenceRadius` from the particle, a radius above
`baseRadius` decays by exactly 1/10 that frame (and so, over successive
such frames, decreases monotonically toward the base), never dropping to
or below `baseRadius − 1/10`, while a radius at or below `baseRadius` is
left unchanged; in both cases the radius never increases. -/
theorem dots_radius_decay (c : Canvas) (m : Mouse) (p : Particle) (dist mx my : ℚ) :
    ((m.x = none ∨ m.y = none) →
      (Particle.update AnimationType.dots c m dist p).radius = p.radius) ∧
    (m.x = some mx → m.y = some my →
      IsSqrtOf dist (mouseSqDist mx my (Particle.move c p)) → m.radius ≤ dist →
      ((p.baseRadius < p.radius →
          (Particle.update AnimationType.dots c m dist p).radius = p.radius - 1/10 ∧
          p.baseRadius - 1/10 < (Particle.update AnimationType.dots c m dist p).radius) ∧
       (p.radius ≤ p.baseRadius →
          (Particle.update AnimationType.dots c m dist p).radius = p.radius) ∧
       (Particle.update AnimationType.dots c m dist p).radius ≤ p.radius)) := by
  obtain ⟨mox, moy, mr⟩ := m
  constructor
  · rintro (h | h)
    · cases h
      rfl
    · cases h
      cases mox <;> rfl
  · rintro hx hy hsq hfar
    cases hx
    cases hy
    have hb : (Particle.move c p).baseRadius = p.baseRadius := rfl
    have hr : (Particle.move c p).radius = p.radius := rfl
    have h1 : Particle.update AnimationType.dots c { x := some mx, y := some my, radius := mr }
        dist p =
        (if dist < mr then
          { Particle.move c p with
            radius := min (p.baseRadius * 3) (p.baseRadius + (mr - dist) / 10) }
        else if p.baseRadius < p.radius then
          { Particle.move c p with radius := p.radius - 1/10 }
        else Particle.move c p) := rfl
    rw [h1, if_neg (not_lt.mpr hfar)]
    by_cases hgrow : p.baseRadius < p.radius
    · rw [if_pos hgrow]
      refine ⟨fun _ => ⟨rfl, by simpa using by linarith⟩, fun hle => absurd hgrow (not_lt.mpr hle),
        ?_⟩
      show p.radius - 1/10 ≤ p.radius
      linarith
    · rw [if_neg hgrow]
      exact ⟨fun hlt => absurd hlt hgrow, fun _ => hr, le_of_eq hr⟩

/-- Witness for `dots_radius_decay`: pointer at `(400, 300)`, particle at
`(400, 100)` (distance 200 ≥ 150), radius 5 above base 2 decays to 49/10. -/
theorem dots_radius_decay_witness :
    (Particle.update AnimationType.dots { width := 800, height := 600 }
        { x := some 400, y := some 300, radius := 150 } 200 particleMagnified).radius =
      particleMagnified.radius - 1/10 ∧
    particleMagnified.baseRadius - 1/10 <
      (Particle.update AnimationType.dots { width := 800, height := 600 }
        { x := some 400, y := some 300, radius := 150 } 200 particleMagnified).radius := by
  have h := dots_radius_decay { width := 800, height := 600 }
    { x := some 400, y := some 300, radius := 150 } particleMagnified 200 400 300
  have h2 := h.2 rfl rfl
    (⟨by norm_num, by
      show (200:ℚ) * 200 = mouseSqDist 400 300
        (Particle.move { width := 800, height := 600 } particleMagnified)
      norm_num [mouseSqDist, Particle.move, bounceV, particleMagnified]⟩)
    (by norm_num)
  exact h2.1 (by norm_num [particleMagnified])

/-! ## C5: dots-mode magnification formula and cap -/

/-- **C5**: in dots mode, when the pointer is present at Euclidean
distance `dist < influenceRadius` from the (already advanced) particle,
the update sets `currentRadius` to
`min(3 × baseRadius, baseRadius + (influenceRadius − dist)/10)`; in
particular the radius never exceeds the `3 × baseRadius` cap. -/
theorem dots_magnify_formula (c : Canvas) (m : Mouse) (p : Particle) (dist mx my : ℚ)
    (hx : m.x = some mx) (hy : m.y = some my)
    (hsq : IsSqrtOf dist (mouseSqDist mx my (Particle.move c p)))
    (hnear : dist < m.radius) :
    (Particle.update AnimationType.dots c m dist p).radius =
      min (p.baseRadius * 3) (p.baseRadius + (m.radius - dist) / 10) ∧
    (Particle.update AnimationType.dots c m dist p).radius ≤ p.baseRadius * 3 := by
  obtain ⟨mox, moy, mr⟩ := m
  cases hx
  cases hy
  have h1 : Particle.update AnimationType.dots c { x := some mx, y := some my, radius := mr }
      dist p =
      (if dist < mr then
        { Particle.move c p with
          radius := min (p.baseRadius * 3) (p.baseRadius + (mr - dist) / 10) }
      else if p.baseRadius < p.radius then
        { Particle.move c p with radius := p.radius - 1/10 }
      else Particle.move c p) := rfl
  rw [h1, if_pos hnear]
  exact ⟨rfl, min_le_left _ _⟩

/-- The scenario particle of the spec: at `(410, 300)`, `baseRadius` 2,
motionless. -/
def particleScenario : Particle :=
  { x := 410, y := 300, baseRadius := 2, radius := 2, dx := 0, dy := 0, color := "d" }

/-- The scenario pointer: at `(400, 300)` with influence radius 150. -/
def mouseScenario : Mouse := { x := some 400, y := some 300, radius := 150 }

/-- The scenario surface: 800×600. -/
def canvasScenario : Canvas := { width := 800, height := 600 }

/-- Witness for `dots_magnify_formula` at the spec's scenario: surface
800×600, pointer `(400,300)`, particle `(410,300)` with `baseRadius` 2 at
distance 10, so `currentRadius` becomes `min(6, 2 + 14) = 6` on the first
frame, equals 6 again on the next frame, and 6 is the `3 × baseRadius`
cap. -/
theorem dots_magnify_formula_witness :
    (Particle.update AnimationType.dots canvasScenario mouseScenario 10 particleScenario).radius
      = 6 ∧
    (Particle.update AnimationType.dots canvasScenario mouseScenario 10
        (Particle.update AnimationType.dots canvasScenario mouseScenario 10
          particleScenario)).radius = 6 ∧
    (6:ℚ) = particleScenario.baseRadius * 3 := by
  have hsq1 : IsSqrtOf 10 (mouseSqDist 400 300 (Particle.move canvasScenario particleScenario)) :=
    ⟨by norm_num, by
      norm_num [mouseSqDist, Particle.move, bounceV, particleScenario, canvasScenario]⟩
  have h1 := dots_magnify_formula canvasScenario mouseScenario particleScenario 10 400 300 rfl rfl
    hsq1 (by norm_num [mouseScenario])
  have e1 : (Particle.update AnimationType.dots canvasScenario mouseScenario 10
      particleScenario).radius = 6 := by
    rw [h1.1]
    norm_num [particleScenario, mouseScenario]
  have hsq2 : IsSqrtOf 10 (mouseSqDist 400 300 (Particle.move canvasScenario
      (Particle.update AnimationType.dots canvasScenario mouseScenario 10 particleScenario))) :=
    ⟨by norm_num, by
      norm_num [mouseSqDist, Particle.move, bounceV, Particle.update, Particle.interact,
        particleScenario, canvasScenario, mouseScenario]⟩
  have h2 := dots_magnify_formula canvasScenario mouseScenario
    (Particle.update AnimationType.dots canvasScenario mouseScenario 10 particleScenario)
    10 400 300 rfl rfl hsq2 (by norm_num [mouseScenario])
  have e2 : (Particle.update AnimationType.dots canvasScenario mouseScenario 10
      (Particle.update AnimationType.dots canvasScenario mouseScenario 10
        particleScenario)).radius = 6 := by
    rw [h2.1]
    have hb : (Particle.update AnimationType.dots canvasScenario mouseScenario 10
        particleScenario).baseRadius = 2 := rfl
    rw [hb]
    norm_num [mouseScenario]
  exact ⟨e1, e2, by norm_num [particleScenario]⟩

/-! ## C6: network-mode pointer repulsion -/

/-- **C6**: in network mode with the pointer present, a particle whose
(post-advance) Euclidean distance to the pointer is below
`influenceRadius` has `1/20` of the pointer-to-particle delta subtracted
from each coordinate (`x -= (mouse.x − x)/20`), applied after the
velocity advance; equivalently each coordinate's offset from the pointer
is scaled by `21/20`, a nudge directly away from the pointer.  A particle
at or beyond `influenceRadius` is not nudged. -/
theorem network_repulsion (c : Canvas) (m : Mouse) (p : Particle) (dist mx my : ℚ)
    (hx : m.x = some mx) (hy : m.y = some my)
    (hsq : IsSqrtOf dist (mouseSqDist mx my (Particle.move c p))) :
    (dist < m.radius →
      (Particle.update AnimationType.network c m dist p).x =
        (Particle.move c p).x - (mx - (Particle.move c p).x) / 20 ∧
      (Particle.update AnimationType.network c m dist p).y =
        (Particle.move c p).y - (my - (Particle.move c p).y) / 20 ∧
      (Particle.update AnimationType.network c m dist p).x - mx =
        21/20 * ((Particle.move c p).x - mx) ∧
      (Particle.update AnimationType.network c m dist p).y - my =
        21/20 * ((Particle.move c p).y - my)) ∧
    (m.radius ≤ dist →
      (Particle.update AnimationType.network c m dist p).x = (Particle.move c p).x ∧
      (Particle.update AnimationType.network c m dist p).y = (Particle.move c p).y) := by
  obtain ⟨mox, moy, mr⟩ := m
  cases hx
  cases hy
  have h1 : Particle.update AnimationType.network c { x := some mx, y := some my, radius := mr }
      dist p =
      (if dist < mr then
        { Particle.move c p with
          x := (Particle.move c p).x - (mx - (Particle.move c p).x) / 20,
          y := (Particle.move c p).y - (my - (Particle.move c p).y) / 20 }
      else Particle.move c p) := rfl
  constructor
  · intro hnear
    rw [h1, if_pos hnear]
    refine ⟨rfl, rfl, ?_, ?_⟩ <;> ring
  · intro hfar
    rw [h1, if_neg (not_lt.mpr hfar)]
    exact ⟨rfl, rfl⟩

/-- Witness for `network_repulsion`: pointer `(400,300)`, particle
`(410,300)` at distance 10 < 150 is pushed to `x = 410.5`, directly away
from the pointer. -/
theorem network_repulsion_witness :
    (Particle.update AnimationType.network canvasScenario mouseScenario 10
        particleScenario).x = 821/2 ∧
    (Particle.update AnimationType.network canvasScenario mouseScenario 10
        particleScenario).y = 300 := by
  have hsq : IsSqrtOf 10 (mouseSqDist 400 300 (Particle.move canvasScenario particleScenario)) :=
    ⟨by norm_num, by
      norm_num [mouseSqDist, Particle.move, bounceV, particleScenario, canvasScenario]⟩
  have h := network_repulsion canvasScenario mouseScenario particleScenario 10 400 300 rfl rfl hsq
  have h2 := h.1 (by norm_num [mouseScenario])
  refine ⟨?_, ?_⟩
  · rw [h2.1]
    norm_num [Particle.move, bounceV, particleScenario, canvasScenario]
  · rw [h2.2.1]
    norm_num [Particle.move, bounceV, particleScenario, canvasScenario]

/-! ## C7: before any pointer event, every pointer-dependent path no-ops -/

/-- **C7**: with the initial mouse state (no pointer-move event yet, both
coordinates `undefined`), the per-frame particle update in every mode is
exactly the pure bounce-and-move step (no repulsion, no magnification,
no decay), wave amplitudes are not recomputed, and every connection
stroke uses the default palette color. -/
theorem pointer_absent_noop :
    (∀ (ty : AnimationType) (c : Canvas) (dist : ℚ) (p : Particle),
        Particle.update ty c initMouse dist p = Particle.move c p) ∧
    (∀ (c : Canvas) (w : Wave) (i : ℕ), waveAmplitude c initMouse w i = w.amplitude) ∧
    (∀ dA : ℚ, lineColor initMouse dA = defaultStroke) :=
  ⟨fun _ _ _ _ => rfl, fun _ _ _ => rfl, fun _ => rfl⟩

/-! ## C8: particle-count rule of (re)initialization -/

/-- **C8**: a fresh particle set's size depends only on the mode and on
the viewport width against the fixed 768 px breakpoint: network yields 80
particles at width ≥ 768 and 40 below it, dots yields 180 at width ≥ 768
and 60 below it (the prior set does not enter `initParticles` at all —
line 117 discards it). -/
theorem initParticles_count (iw : ℚ) (c : Canvas) (rand : ℕ → ℚ) :
    (initParticles AnimationType.network iw c rand).length = (if iw < 768 then 40 else 80) ∧
    (initParticles AnimationType.dots iw c rand).length = (if iw < 768 then 60 else 180) := by
  constructor <;> simp [initParticles, particleCount]

/-! ## C9: wave amplitude at the vertical pointer midpoint -/

/-- **C9**: in waves mode, when the stored pointer height is exactly
`height/2` the recomputed amplitude equals the wave's `baseAmplitude` for
every wave and wave index — the influence term
`(pointerY/height × 2 − 1) × 20 × (index+1)` vanishes. -/
theorem wave_amplitude_center (c : Canvas) (m : Mouse) (w : Wave) (i : ℕ)
    (hy : m.y = some (c.height / 2)) (hh : c.height ≠ 0) :
    waveAmplitude c m w i = w.baseAmplitude := by
  have h2 : c.height / 2 / c.height * 2 - 1 = 0 := by
    field_simp
    ring
  simp [waveAmplitude, hy, h2]

/-- A sample wave record. -/
def waveSample : Wave :=
  { timeModifier := 1, baseAmplitude := 70, amplitude := 80, wavelength := 300, yOffset := 10,
    color := "c" }

/-- Witness for `wave_amplitude_center`: 800×600 surface, pointer height
300 = 600/2, third wave: amplitude recomputes to the base 70. -/
theorem wave_amplitude_center_witness :
    waveAmplitude { width := 800, height := 600 }
      { x := some 400, y := some 300, radius := 150 } waveSample 2 = 70 := by
  have h := wave_amplitude_center { width := 800, height := 600 }
    { x := some 400, y := some 300, radius := 150 } waveSample 2 (by norm_num) (by norm_num)
  rw [h]
  rfl

/-! ## C10: truthiness, not presence, selects the highlighted line color -/

/-- **C10**: the stroke color of line 144 tests the stored pointer
coordinates for JavaScript truthiness, not presence: after a pointer-move
event recording `x = 0` (or `y = 0`), every connection line is issued
with the default palette color even when the pointer lies within
`influenceRadius` of the pair's first particle. -/
theorem lineColor_zero_coordinate (m : Mouse) (c : Canvas) (my mx dA dist : ℚ)
    (hA : dA < (handleMouseMove m 0 my).radius) (hdist : dist < connectDistance c) :
    lineColor (handleMouseMove m 0 my) dA = defaultStroke ∧
    lineColor (handleMouseMove m mx 0) dA = defaultStroke ∧
    connectLine c (handleMouseMove m 0 my) dist dA =
      some (1 - dist / connectDistance c, defaultStroke) := by
  refine ⟨?_, ?_, ?_⟩ <;>
    simp [lineColor, connectLine, handleMouseMove, truthy, hdist]

/-- Witness for `lineColor_zero_coordinate`: pointer recorded at `(0, 300)`
(or `(5, 0)`), a particle 10 px away (well within radius 150), a pair at
distance 50 < 800/8: the stroke still uses the default color. -/
theorem lineColor_zero_coordinate_witness :
    lineColor (handleMouseMove initMouse 0 300) 10 = defaultStroke ∧
    lineColor (handleMouseMove initMouse 5 0) 10 = defaultStroke ∧
    connectLine { width := 800, height := 600 } (handleMouseMove initMouse 0 300) 50 10 =
      some (1 - 50 / connectDistance { width := 800, height := 600 }, defaultStroke) :=
  lineColor_zero_coordinate initMouse { width := 800, height := 600 } 300 5 10 50
    (by norm_num [handleMouseMove, initMouse]) (by norm_num [connectDistance])

/-! ## C3: connection lines — threshold, opacity, monotonicity -/

/-- Characterisation of the strokes issued by `connect`: a stroke with
endpoints `(a, b)` appears exactly for the loop pairs `a ≤ b < n` whose
`connectLine` fires, and it carries that call's opacity and color. -/
theorem mem_connect_iff (c : Canvas) (m : Mouse) (n : ℕ) (d : ℕ → ℕ → ℚ) (dA : ℕ → ℚ)
    (L : LineSeg) :
    L ∈ connect c m n d dA ↔
      L.a ≤ L.b ∧ L.b < n ∧
        connectLine c m (d L.a L.b) (dA L.a) = some (L.opacity, L.color) := by
  unfold connect
  simp only [List.mem_flatMap, List.mem_filterMap, List.mem_filter, List.mem_range,
    Option.map_eq_some', decide_eq_true_eq]
  constructor
  · rintro ⟨a, ha, b, ⟨⟨hb, hab⟩, oc, hoc, hL⟩⟩
    cases hL
    exact ⟨hab, hb, hoc⟩
  · rintro ⟨hab, hb, hoc⟩
    exact ⟨L.a, lt_of_le_of_lt hab hb, L.b, ⟨hb, hab⟩, (L.opacity, L.color), hoc, rfl⟩

/-- **C3**: in network mode, over every unordered pair of particle
indices (`a ≤ b`, the loop of lines 136–137), a connection stroke is
issued iff the pair's Euclidean distance is strictly below
`width/8`; its opacity is `1 − distance/(width/8)`; and among issued
strokes the opacity strictly decreases as the distance grows toward the
threshold.  (`d a b` is constrained by `hd` to be the Euclidean distance
between particles `a` and `b`.) -/
theorem connect_iff_opacity (c : Canvas) (m : Mouse) (ps : List Particle)
    (d : ℕ → ℕ → ℚ) (dA : ℕ → ℚ) (hw : 0 < c.width)
    (hd : ∀ a b, (ha : a < ps.length) → (hb : b < ps.length) →
        IsSqrtOf (d a b)
          (((ps.get ⟨a, ha⟩).x - (ps.get ⟨b, hb⟩).x) ^ 2 +
            ((ps.get ⟨a, ha⟩).y - (ps.get ⟨b, hb⟩).y) ^ 2)) :
    (∀ a b, a ≤ b → b < ps.length →
      ((∃ L ∈ connect c m ps.length d dA, L.a = a ∧ L.b = b) ↔ d a b < connectDistance c)) ∧
    (∀ L ∈ connect c m ps.length d dA, L.opacity = 1 - d L.a L.b / connectDistance c) ∧
    (∀ L1 ∈ connect c m ps.length d dA, ∀ L2 ∈ connect c m ps.length d dA,
      d L1.a L1.b < d L2.a L2.b → L2.opacity < L1.opacity) := by
  have hcd : 0 < connectDistance c := by
    unfold connectDistance
    positivity
  have hop : ∀ L ∈ connect c m ps.length d dA,
      L.opacity = 1 - d L.a L.b / connectDistance c ∧ d L.a L.b < connectDistance c := by
    intro L hL
    obtain ⟨-, -, hoc⟩ := (mem_connect_iff c m ps.length d dA L).mp hL
    unfold connectLine at hoc
    by_cases hlt : d L.a L.b < connectDistance c
    · rw [if_pos hlt] at hoc
      exact ⟨(Prod.mk.injEq _ _ _ _ ▸ Option.some.inj hoc).1.symm, hlt⟩
    · rw [if_neg hlt] at hoc
      exact absurd hoc (Option.some_ne_none _).symm
  refine ⟨?_, fun L hL => (hop L hL).1, ?_⟩
  · intro a b hab hb
    constructor
    · rintro ⟨L, hL, hLa, hLb⟩
      have := (hop L hL).2
      rwa [hLa, hLb] at this
    · intro hlt
      refine ⟨LineSeg.mk a b (1 - d a b / connectDistance c) (lineColor m (dA a)),
        ?_, rfl, rfl⟩
      rw [mem_connect_iff]
      refine ⟨hab, hb, ?_⟩
      unfold connectLine
      rw [if_pos hlt]
  · intro L1 hL1 L2 hL2 hlt
    obtain ⟨ho1, -⟩ := hop L1 hL1
    obtain ⟨ho2, -⟩ := hop L2 hL2
    rw [ho1, ho2]
    have : d L1.a L1.b / connectDistance c < d L2.a L2.b / connectDistance c := by
      gcongr
    linarith

/-- Two coincident particles used to instantiate the connect
characterisation at a rational (zero) distance. -/
def particlePair : Particle :=
  { x := 10, y := 10, baseRadius := 1, radius := 1, dx := 0, dy := 0, color := "p" }

/-- Witness for `connect_iff_opacity`: two coincident particles on an
800×600 surface (distance 0 < 100): a stroke between indices 0 and 1 is
issued. -/
theorem connect_iff_opacity_witness :
    ∃ L ∈ connect { width := 800, height := 600 } initMouse
        [particlePair, particlePair].length (fun _ _ => 0) (fun _ => 0),
      L.a = 0 ∧ L.b = 1 := by
  have h := connect_iff_opacity { width := 800, height := 600 } initMouse
    [particlePair, particlePair] (fun _ _ => 0) (fun _ => 0) (by norm_num)
    (by
      intro a b ha hb
      refine ⟨le_refl 0, ?_⟩
      simp only [List.length_cons, List.length_nil] at ha hb
      interval_cases a <;> interval_cases b <;> norm_num [particlePair])
  exact (h.1 0 1 (by norm_num) (by norm_num)).mpr (by norm_num [connectDistance])
